import Mathlib

/-!
Verification of the three functions of `src/rust/src/api/simple.rs`:
`greet`, `calculate_fibonacci` and `add_numbers`.

The Rust code is embedded shallowly: `u64` values are naturals reduced
modulo `2 ^ 64` where an operation can overflow, `i64` values are integers
wrapped into the two's-complement range, strings are Lean `String`s.
-/

/-- The modulus of 64-bit unsigned arithmetic, `2 ^ 64`. -/
def U64_MOD : Nat := 18446744073709551616

/-- The magnitude of `i64::MIN`, `2 ^ 63`, as an integer. -/
def TWO63 : Int := 9223372036854775808

/-- The modulus of 64-bit arithmetic, `2 ^ 64`, as an integer. -/
def TWO64 : Int := 18446744073709551616

/-- Two's-complement wraparound of an integer into the `i64` range:
the unique representative of `x` modulo `2 ^ 64` lying in
`[-2 ^ 63, 2 ^ 63)`. -/
def wrap64 (x : Int) : Int := (x + TWO63) % TWO64 - TWO63

/-- Embedding of `pub fn greet(name: String) -> String`, whose body is
`format!("Hello, \x7b\x7d! 🦀", name)`: the name placed between the fixed
prefix and the fixed decorative suffix. -/
def greet (name : String) : String := "Hello, " ++ name ++ "! 🦀"

/-- Embedding of the `for _ in 2..=n` loop of `calculate_fibonacci`,
parametrised by the number of remaining iterations. Each iteration runs
`let temp = a + b; a = b; b = temp` on `u64` values, so the sum is reduced
modulo `2 ^ 64` (release-mode wraparound, the reference overflow behavior
chosen by the specification); on exit the loop's result is `b`. -/
def fibLoop : Nat → Nat → Nat → Nat
  | 0, _, b => b
  | k + 1, a, b => fibLoop k b ((a + b) % U64_MOD)

/-- Embedding of `pub fn calculate_fibonacci(n: u32) -> u64`: a match on
`n` returning `0` for `0`, `1` for `1`, and otherwise running the loop
`n - 1` times (the range `2..=n`) from the pair `(0, 1)`. -/
def calculate_fibonacci (n : Nat) : Nat :=
  match n with
  | 0 => 0
  | 1 => 1
  | _ => fibLoop (n - 1) 0 1

/-- Embedding of `pub fn add_numbers(a: i64, b: i64) -> i64`, whose body is
`a + b` on `i64` with release-mode wraparound semantics. -/
def add_numbers (a b : Int) : Int := wrap64 (a + b)

/-- The reference Fibonacci definition of the specification:
`F(0) = 0`, `F(1) = 1`, `F(n) = F(n-1) + F(n-2)`, over unbounded naturals. -/
def fibRef : Nat → Nat
  | 0 => 0
  | 1 => 1
  | n + 2 => fibRef n + fibRef (n + 1)

/-- The loop of `calculate_fibonacci` with the additions left unbounded
(no reduction modulo `2 ^ 64`): the idealised iterative algorithm. -/
def fibIterLoop : Nat → Nat → Nat → Nat
  | 0, _, b => b
  | k + 1, a, b => fibIterLoop k b (a + b)

/-- `calculate_fibonacci` with unbounded arithmetic: the iterative
algorithm of the source, starting from the pair `(0, 1)` and applying
`(a, b) ↦ (b, a + b)` exactly `n - 1` times for `n ≥ 2`. -/
def fibIter (n : Nat) : Nat :=
  match n with
  | 0 => 0
  | 1 => 1
  | _ => fibIterLoop (n - 1) 0 1

/-- The loop of `calculate_fibonacci` under checked-addition semantics:
an addition whose result does not fit in `u64` would panic, modelled by
`none`; a normal return is `some`. -/
def fibLoopChecked : Nat → Nat → Nat → Option Nat
  | 0, _, b => some b
  | k + 1, a, b =>
      if a + b < U64_MOD then fibLoopChecked k b (a + b) else none

/-- `calculate_fibonacci` under checked-addition semantics: `none` exactly
when some loop addition overflows. -/
def calculate_fibonacci_checked (n : Nat) : Option Nat :=
  match n with
  | 0 => some 0
  | 1 => some 1
  | _ => fibLoopChecked (n - 1) 0 1

/-- State-passing embedding of an invocation of `greet`: the body reads
and writes nothing outside its own parameter and result, so an arbitrary
ambient state `s` threads through unchanged. -/
def greetCall (σ : Type) (s : σ) (name : String) : String × σ :=
  (greet name, s)

/-- State-passing embedding of an invocation of `calculate_fibonacci`:
the body touches only its parameter and two local variables, so an
arbitrary ambient state `s` threads through unchanged. -/
def calculate_fibonacci_call (σ : Type) (s : σ) (n : Nat) : Nat × σ :=
  (calculate_fibonacci n, s)

/-- State-passing embedding of an invocation of `add_numbers`: the body
reads and writes nothing outside its parameters and result, so an
arbitrary ambient state `s` threads through unchanged. -/
def add_numbers_call (σ : Type) (s : σ) (a b : Int) : Int × σ :=
  (add_numbers a b, s)

/-! ### Helper lemmas about the Fibonacci embeddings -/

theorem fibRef_eq_fib : ∀ n : Nat, fibRef n = Nat.fib n
  | 0 => rfl
  | 1 => rfl
  | n + 2 => by
      show fibRef n + fibRef (n + 1) = Nat.fib (n + 2)
      rw [Nat.fib_add_two, fibRef_eq_fib n, fibRef_eq_fib (n + 1)]

theorem fibRef_mono {a b : Nat} (h : a ≤ b) : fibRef a ≤ fibRef b := by
  rw [fibRef_eq_fib, fibRef_eq_fib]
  exact Nat.fib_mono h

theorem fib93_lt : Nat.fib 93 < U64_MOD := by decide

theorem fib94_ge : U64_MOD ≤ Nat.fib 94 := by decide

theorem fibRef_lt_of_le {n : Nat} (h : n ≤ 93) : fibRef n < U64_MOD := by
  rw [fibRef_eq_fib]
  exact lt_of_le_of_lt (Nat.fib_mono h) fib93_lt

theorem fibLoop_sim (k : Nat) : ∀ m : Nat,
    fibLoop k (fibRef m % U64_MOD) (fibRef (m + 1) % U64_MOD)
      = fibRef (m + k + 1) % U64_MOD := by
  induction k with
  | zero => intro m; rfl
  | succ k ih =>
      intro m
      show fibLoop k (fibRef (m + 1) % U64_MOD)
          ((fibRef m % U64_MOD + fibRef (m + 1) % U64_MOD) % U64_MOD)
        = fibRef (m + (k + 1) + 1) % U64_MOD
      have h2 : (fibRef m % U64_MOD + fibRef (m + 1) % U64_MOD) % U64_MOD
          = fibRef (m + 1 + 1) % U64_MOD := by
        rw [← Nat.add_mod]
        rfl
      have e : m + 1 + k + 1 = m + (k + 1) + 1 := by omega
      rw [h2, ih (m + 1), e]

theorem calculate_fibonacci_eq_mod :
    ∀ n : Nat, calculate_fibonacci n = fibRef n % U64_MOD
  | 0 => rfl
  | 1 => rfl
  | k + 2 => by
      show fibLoop (k + 1) 0 1 = fibRef (k + 2) % U64_MOD
      have h := fibLoop_sim (k + 1) 0
      have e : 0 + (k + 1) + 1 = k + 2 := by omega
      rw [e] at h
      exact h

theorem calculate_fibonacci_eq_ref {n : Nat} (h : n ≤ 93) :
    calculate_fibonacci n = fibRef n := by
  rw [calculate_fibonacci_eq_mod n, Nat.mod_eq_of_lt (fibRef_lt_of_le h)]

theorem fibIterLoop_sim (k : Nat) : ∀ m : Nat,
    fibIterLoop k (fibRef m) (fibRef (m + 1)) = fibRef (m + k + 1) := by
  induction k with
  | zero => intro m; rfl
  | succ k ih =>
      intro m
      show fibIterLoop k (fibRef (m + 1)) (fibRef m + fibRef (m + 1))
        = fibRef (m + (k + 1) + 1)
      have h2 : fibRef m + fibRef (m + 1) = fibRef (m + 1 + 1) := rfl
      have e : m + 1 + k + 1 = m + (k + 1) + 1 := by omega
      rw [h2, ih (m + 1), e]

theorem fibIter_eq_ref : ∀ n : Nat, fibIter n = fibRef n
  | 0 => rfl
  | 1 => rfl
  | k + 2 => by
      show fibIterLoop (k + 1) 0 1 = fibRef (k + 2)
      have h := fibIterLoop_sim (k + 1) 0
      have e : 0 + (k + 1) + 1 = k + 2 := by omega
      rw [e] at h
      exact h

theorem fibLoopChecked_sim (k : Nat) : ∀ m : Nat,
    fibRef (m + k + 1) < U64_MOD →
    fibLoopChecked k (fibRef m) (fibRef (m + 1)) = some (fibRef (m + k + 1)) := by
  induction k with
  | zero => intro m _; rfl
  | succ k ih =>
      intro m h
      show (if fibRef m + fibRef (m + 1) < U64_MOD then
          fibLoopChecked k (fibRef (m + 1)) (fibRef m + fibRef (m + 1))
        else none) = some (fibRef (m + (k + 1) + 1))
      have h2 : fibRef m + fibRef (m + 1) = fibRef (m + 1 + 1) := rfl
      have e : m + 1 + k + 1 = m + (k + 1) + 1 := by omega
      have hlt : fibRef m + fibRef (m + 1) < U64_MOD := by
        rw [h2]
        exact lt_of_le_of_lt (fibRef_mono (by omega)) (e ▸ h)
      rw [if_pos hlt, h2, ih (m + 1) (by rw [e]; exact h), e]

/-! ### Claim theorems -/

/-- Claim C1: for every n with 0 ≤ n ≤ 93, `calculate_fibonacci n` returns
the n-th Fibonacci number of the reference definition F(0)=0, F(1)=1,
F(n)=F(n-1)+F(n-2); in particular the values at 0, 1, 10 and 20 are
0, 1, 55 and 6765. -/
theorem C1_fibonacci_correct_in_range (n : Nat) (h : n ≤ 93) :
    calculate_fibonacci n = fibRef n ∧
    calculate_fibonacci 0 = 0 ∧ calculate_fibonacci 1 = 1 ∧
    calculate_fibonacci 10 = 55 ∧ calculate_fibonacci 20 = 6765 :=
  ⟨calculate_fibonacci_eq_ref h, rfl, rfl, by decide, by decide⟩

theorem C1_fibonacci_correct_in_range_witness :
    calculate_fibonacci 93 = fibRef 93 ∧
    calculate_fibonacci 0 = 0 ∧ calculate_fibonacci 1 = 1 ∧
    calculate_fibonacci 10 = 55 ∧ calculate_fibonacci 20 = 6765 :=
  C1_fibonacci_correct_in_range 93 (by decide)

/-- Claim C2: for every pair of in-range signed 64-bit integers a and b,
`add_numbers a b` is the sum of a and b under two's-complement wraparound:
it is congruent to a + b modulo 2 ^ 64 and lies in the i64 range
[-2 ^ 63, 2 ^ 63); in particular `add_numbers i64::MIN (-1)` returns
i64::MAX rather than reporting an error. -/
theorem C2_add_numbers_wraparound :
    (∀ a b : Int, -TWO63 ≤ a → a < TWO63 → -TWO63 ≤ b → b < TWO63 →
      TWO64 ∣ (a + b - add_numbers a b) ∧
      -TWO63 ≤ add_numbers a b ∧ add_numbers a b < TWO63) ∧
    add_numbers (-TWO63) (-1) = TWO63 - 1 := by
  constructor
  · intro a b _ _ _ _
    refine ⟨?_, ?_, ?_⟩
    · have key : a + b - add_numbers a b = TWO64 * ((a + b + TWO63) / TWO64) := by
        show a + b - ((a + b + TWO63) % TWO64 - TWO63) = _
        rw [Int.emod_def]
        ring
      exact ⟨_, key⟩
    · show -TWO63 ≤ (a + b + TWO63) % TWO64 - TWO63
      have h := Int.emod_nonneg (a + b + TWO63) (show TWO64 ≠ 0 by decide)
      omega
    · show (a + b + TWO63) % TWO64 - TWO63 < TWO63
      have h := Int.emod_lt_of_pos (a + b + TWO63) (show (0 : Int) < TWO64 by decide)
      have e : TWO64 = TWO63 + TWO63 := by decide
      omega
  · decide

theorem C2_add_numbers_wraparound_witness :
    (TWO64 ∣ (-TWO63 + -1 - add_numbers (-TWO63) (-1)) ∧
      -TWO63 ≤ add_numbers (-TWO63) (-1) ∧ add_numbers (-TWO63) (-1) < TWO63) ∧
    add_numbers (-TWO63) (-1) = TWO63 - 1 :=
  ⟨C2_add_numbers_wraparound.1 (-TWO63) (-1) (by decide) (by decide)
      (by decide) (by decide),
    C2_add_numbers_wraparound.2⟩

/-- Claim C3: for every n > 93, `calculate_fibonacci n` returns the true
Fibonacci number F(n) reduced modulo 2 ^ 64 (silent wraparound in the
64-bit unsigned representation) — the function returns this value for
every n, and for n > 93 the true value really exceeds the range, so the
reduction is a genuine wraparound. -/
theorem C3_fibonacci_overflow_wraps (n : Nat) (h : 93 < n) :
    calculate_fibonacci n = fibRef n % U64_MOD ∧ U64_MOD ≤ fibRef n :=
  ⟨calculate_fibonacci_eq_mod n, by
    rw [fibRef_eq_fib]
    exact le_trans fib94_ge (Nat.fib_mono (by omega))⟩

theorem C3_fibonacci_overflow_wraps_witness :
    calculate_fibonacci 94 = fibRef 94 % U64_MOD ∧ U64_MOD ≤ fibRef 94 :=
  C3_fibonacci_overflow_wraps 94 (by decide)

/-- Claim C4: for every string name, including the empty string,
`greet name` is exactly "Hello, " followed by the name verbatim followed
by the fixed suffix "! 🦀"; in particular greet "World" and greet "" give
the two specified literals, with no validation or error for any name. -/
theorem C4_greet_format :
    greet "World" = "Hello, World! 🦀" ∧ greet "" = "Hello, ! 🦀" ∧
    ∀ name : String, greet name = "Hello, " ++ name ++ "! 🦀" :=
  ⟨rfl, rfl, fun _ => rfl⟩

/-- Claim C5: for every n with 2 ≤ n ≤ 93 (so that F(n) fits in u64),
`calculate_fibonacci n` equals
`calculate_fibonacci (n-1) + calculate_fibonacci (n-2)`. -/
theorem C5_fibonacci_recurrence (n : Nat) (h2 : 2 ≤ n) (h93 : n ≤ 93) :
    calculate_fibonacci n
      = calculate_fibonacci (n - 1) + calculate_fibonacci (n - 2) := by
  obtain ⟨k, rfl⟩ : ∃ k, n = k + 2 := ⟨n - 2, by omega⟩
  rw [calculate_fibonacci_eq_ref h93,
    calculate_fibonacci_eq_ref (show k + 2 - 1 ≤ 93 by omega),
    calculate_fibonacci_eq_ref (show k + 2 - 2 ≤ 93 by omega)]
  show fibRef k + fibRef (k + 1) = fibRef (k + 1) + fibRef k
  exact Nat.add_comm _ _

theorem C5_fibonacci_recurrence_witness :
    calculate_fibonacci 12
      = calculate_fibonacci (12 - 1) + calculate_fibonacci (12 - 2) :=
  C5_fibonacci_recurrence 12 (by decide) (by decide)

/-- Claim C6: for every pair of in-range signed 64-bit integers a and b
whose mathematical sum is representable in i64, `add_numbers a b` returns
exactly a + b; in particular `add_numbers 2 3 = 5` and
`add_numbers (-5) 5 = 0`. -/
theorem C6_add_numbers_exact :
    (∀ a b : Int, -TWO63 ≤ a → a < TWO63 → -TWO63 ≤ b → b < TWO63 →
      -TWO63 ≤ a + b → a + b < TWO63 → add_numbers a b = a + b) ∧
    add_numbers 2 3 = 5 ∧ add_numbers (-5) 5 = 0 := by
  refine ⟨fun a b _ _ _ _ hs1 hs2 => ?_, by decide, by decide⟩
  show (a + b + TWO63) % TWO64 - TWO63 = a + b
  have e : TWO64 = TWO63 + TWO63 := by decide
  rw [Int.emod_eq_of_lt (by omega) (by omega)]
  ring

theorem C6_add_numbers_exact_witness :
    add_numbers 2 3 = 2 + 3 ∧ add_numbers 2 3 = 5 ∧ add_numbers (-5) 5 = 0 :=
  ⟨C6_add_numbers_exact.1 2 3 (by decide) (by decide) (by decide) (by decide)
      (by decide) (by decide),
    C6_add_numbers_exact.2⟩

/-- Claim C7: for every n ≥ 2, the iterative algorithm of
`calculate_fibonacci` — starting from the pair (0, 1) and applying
(a, b) ↦ (b, a + b) exactly n - 1 times, returning the second
component — computes, over unbounded naturals, the same value as the
naive recursive definition F(0)=0, F(1)=1, F(n)=F(n-1)+F(n-2). -/
theorem C7_iterative_refines_recursive (n : Nat) (_h : 2 ≤ n) :
    fibIter n = fibRef n :=
  fibIter_eq_ref n

theorem C7_iterative_refines_recursive_witness :
    fibIter 30 = fibRef 30 :=
  C7_iterative_refines_recursive 30 (by decide)

/-- Claim C8: each of `greet`, `calculate_fibonacci` and `add_numbers` is
deterministic and pure: an invocation from any ambient state leaves that
state unchanged, and two invocations on equal inputs — even from
different states — return equal outputs. -/
theorem C8_pure_deterministic (σ : Type) (s t : σ) (name : String)
    (n : Nat) (a b : Int) :
    greetCall σ s name = (greet name, s) ∧
    (greetCall σ s name).1 = (greetCall σ t name).1 ∧
    calculate_fibonacci_call σ s n = (calculate_fibonacci n, s) ∧
    (calculate_fibonacci_call σ s n).1 = (calculate_fibonacci_call σ t n).1 ∧
    add_numbers_call σ s a b = (add_numbers a b, s) ∧
    (add_numbers_call σ s a b).1 = (add_numbers_call σ t a b).1 :=
  ⟨rfl, rfl, rfl, rfl, rfl, rfl⟩

/-- Claim C9: for every n ≤ 93, no addition performed inside
`calculate_fibonacci`'s loop overflows u64: under checked-addition
semantics the overflow branch is unreachable and the function returns
normally, with the same value as the wrapping version. -/
theorem C9_no_overflow_up_to_93 (n : Nat) (h : n ≤ 93) :
    calculate_fibonacci_checked n = some (calculate_fibonacci n) := by
  rw [calculate_fibonacci_eq_ref h]
  match n, h with
  | 0, _ => rfl
  | 1, _ => rfl
  | k + 2, h =>
      show fibLoopChecked (k + 1) 0 1 = some (fibRef (k + 2))
      have e : 0 + (k + 1) + 1 = k + 2 := by omega
      have hc := fibLoopChecked_sim (k + 1) 0
        (by rw [e]; exact fibRef_lt_of_le h)
      rw [e] at hc
      exact hc

theorem C9_no_overflow_up_to_93_witness :
    calculate_fibonacci_checked 93 = some (calculate_fibonacci 93) :=
  C9_no_overflow_up_to_93 93 (by decide)

/-- Claim C10: `greet` is injective — equal greetings come only from equal
names — and the length of `greet name` always exceeds the length of the
name by exactly 10, the total length of the fixed "Hello, " and "! 🦀". -/
theorem C10_greet_injective :
    (∀ n1 n2 : String, greet n1 = greet n2 → n1 = n2) ∧
    ∀ name : String, (greet name).length = name.length + 10 := by
  constructor
  · intro n1 n2 h
    have hd := congrArg String.data h
    simp only [greet, String.data_append, List.append_assoc] at hd
    exact String.ext (List.append_cancel_right (List.append_cancel_left hd))
  · intro name
    show (("Hello, " ++ name) ++ "! 🦀").length = name.length + 10
    rw [String.length_append, String.length_append]
    have e1 : ("Hello, " : String).length = 7 := rfl
    have e2 : ("! 🦀" : String).length = 3 := rfl
    omega

theorem C10_greet_injective_witness :
    ("Ada" : String) = "Ada" :=
  C10_greet_injective.1 "Ada" "Ada" rfl
